import Mathlib

/-!
Verification of the wallet-connect / NFT-mint context provider
(`src/context/WalletConnect.tsx`).

The component is UI orchestration: it awaits a handful of external calls
(contract reads, a balance query, a buy transaction) in sequence and emits
user notifications and React state updates. We embed it shallowly:

* every awaited external call is an oracle value in an environment record,
  `Except Unit α` for calls that may throw (`.error ()` = the awaited
  promise rejected);
* the observable behaviour of a handler (`mint`, `connect`, `disconnect`,
  `subscriberError`) is the list of effects it performs, in order, plus —
  for `mint` — whether the async function returned normally or let an
  exception escape uncaught;
* `bignumber.js` values are exact decimals `c · 10^e` (its multiplication
  is exact), JS numeric comparisons are carried out in `ℚ`.
-/

/-- The two wallet providers, as in `type IProviders`. -/
inductive IProviders
  | MetaMask
  | WalletConnect
deriving DecidableEq

/-- The shape of the account object the component stores
(`accountInfo.address`, `accountInfo.type`); `none` models a JS field that
is absent / `undefined`. -/
structure AccountInfo where
  address : Option String
  type : Option String
deriving DecidableEq

/-- The truthiness test `account?.address` used by `mint`: the stored
account value may be `undefined` (`none`), `{}` (`some` with no address)
or a populated object; an empty-string address is falsy in JS. -/
def accountAddress : Option AccountInfo → Option String
  | none => none
  | some a =>
    match a.address with
    | none => none
    | some s => if s = "" then none else some s

/-- An exact decimal `c · 10^e`, the value model of a `bignumber.js`
`BigNumber` (whose coefficient/exponent representation makes `times`
exact). -/
structure BigNumber where
  c : ℤ
  e : ℤ
deriving DecidableEq

/-- `BigNumber` multiplication (`.times`): exact in bignumber.js, no
rounding. -/
def BigNumber.times (a b : BigNumber) : BigNumber :=
  ⟨a.c * b.c, a.e + b.e⟩

/-- `new BigNumber(n.toString())` for a JS integer `n` (also the coercion
applied to the integral literal `10 ** 18`). -/
def BigNumber.ofInt (n : ℤ) : BigNumber :=
  ⟨n, 0⟩

/-- The rational value denoted by a `BigNumber`. -/
def BigNumber.toRat (b : BigNumber) : ℚ :=
  if 0 ≤ b.e then (b.c : ℚ) * 10 ^ b.e.toNat
  else (b.c : ℚ) / 10 ^ (-b.e).toNat

/-- Strip factors of ten from a fraction part: `normFrac c k` normalises
the value `c / 10^k` (`k` pending decimal places) by removing trailing
zero digits, mirroring bignumber.js's normalised coefficient. -/
def normFrac : ℕ → ℕ → ℕ × ℕ
  | c, 0 => (c, 0)
  | c, k + 1 => if c % 10 = 0 then normFrac (c / 10) k else (c, k + 1)

/-- Left-pad a digit string with zeros to length `k`. -/
def padZeros (s : String) (k : ℕ) : String :=
  String.mk (List.replicate (k - s.length) '0') ++ s

/-- `BigNumber.prototype.toFixed()` with no argument: the full decimal
representation in normal (non-exponential) notation. -/
def BigNumber.toFixed (b : BigNumber) : String :=
  let sign := if b.c < 0 then "-" else ""
  let n := b.c.natAbs
  if 0 ≤ b.e then sign ++ Nat.repr (n * 10 ^ b.e.toNat)
  else
    let p := normFrac n (-b.e).toNat
    if p.2 = 0 then sign ++ Nat.repr p.1
    else sign ++ Nat.repr (p.1 / 10 ^ p.2) ++ "." ++ padZeros (Nat.repr (p.1 % 10 ^ p.2)) p.2

/-- Contract method invocations made through the contract service. -/
inductive ContractCall
  | paused
  | allowedToExist
  | totalSupply
  | buy (amount : ℤ) (fromAddr : String) (value : String)
deriving DecidableEq

/-- The payloads handed to the `notify` toast utility. -/
inductive NotifyMsg
  | pleaseConnectWallet
  | mintingPausedNow
  | allNftsSold
  | offerToBuy (tokensLeft amountOfTokensToMint : ℤ)
  | notEnoughMoney (amount : ℤ)
  | txHash (h : String)
  | mintSuccessMultiply
  | mintSuccessSingle (nftId : ℕ)
  | installMetaMask
  | walletConnected (address : String)
  | wrongNetwork (chainName : String)
deriving DecidableEq

/-- Notification severity; `default` stands for the second argument of
`notify` being omitted. -/
inductive Severity
  | default
  | error
  | success
  | info
deriving DecidableEq

/-- Observable effects of the handlers, in program order.  A `notify`
records the message, severity, explicit duration if one was passed, and
`retryMint k` when a retry callback `() => mint(k)` was attached. -/
inductive Event
  | notify (msg : NotifyMsg) (sev : Severity) (duration : Option ℕ) (retryMint : Option ℤ)
  | setIsMinting (b : Bool)
  | setAccount (a : Option AccountInfo)
  | setPricePerToken (p : ℚ)
  | setCurrentSubscription
  | localStorageSetItem (key : String) (val : Option String)
  | localStorageRemoveItem (key : String)
  | getContract
  | contractCall (c : ContractCall)
  | getMaticBalance (address : String)
  | resetConnect
  | initWalletConnect (p : IProviders)
  | resetWeb3
  | getAccount
  | eventSubscribe
  | unsubscribe
deriving DecidableEq

/-- The `Transfer` entry of a mined buy transaction's receipt: web3 gives
a single event object for one token and an array for several. -/
inductive TransferEvents
  | single (tokenId : ℕ)
  | array
deriving DecidableEq

/-- Receipt of a successful buy transaction. -/
structure TxReceipt where
  transactionHash : String
  transfer : TransferEvents
deriving DecidableEq

/-- Oracle for the awaited calls of the `mint` workflow; `.error ()` means
that awaited promise rejects (throws). -/
structure MintEnv where
  pausedResult : Except Unit Bool
  allowedToExistResult : Except Unit ℤ
  totalSupplyResult : Except Unit ℤ
  maticBalanceResult : Except Unit ℚ
  buyResult : Except Unit TxReceipt

/-- Whether the async `mint` function returned normally or let an
exception escape uncaught (an unhandled promise rejection). -/
inductive Outcome
  | returned
  | threw
deriving DecidableEq

/-- Result of one `mint` invocation: effect trace plus outcome. -/
structure MintResult where
  events : List Event
  outcome : Outcome
deriving DecidableEq

/-- The `mint` callback.  Inputs: the stored `account` state, the stored
`pricePerToken` (as the exact decimal value `new BigNumber(pricePerToken)`
reads off the JS number), the oracle for the awaited calls, and the
requested amount.  Only the buy transaction is inside the `try` block:
a rejection of the paused / supply / balance queries escapes uncaught. -/
def mint (account : Option AccountInfo) (pricePerToken : BigNumber) (env : MintEnv)
    (amountOfTokensToMint : ℤ) : MintResult :=
  match accountAddress account with
  | none => ⟨[.notify .pleaseConnectWallet .default none none], .returned⟩
  | some address =>
    let ev1 : List Event := [.setIsMinting true, .getContract, .contractCall .paused]
    match env.pausedResult with
    | .error _ => ⟨ev1, .threw⟩
    | .ok isMintingPaused =>
      if isMintingPaused then
        ⟨ev1 ++ [.notify .mintingPausedNow .default none none, .setIsMinting false], .returned⟩
      else
        let ev2 := ev1 ++ [Event.contractCall .allowedToExist]
        match env.allowedToExistResult with
        | .error _ => ⟨ev2, .threw⟩
        | .ok allowedToExist =>
          let ev3 := ev2 ++ [Event.contractCall .totalSupply]
          match env.totalSupplyResult with
          | .error _ => ⟨ev3, .threw⟩
          | .ok totalSupply =>
            let tokensLeft := allowedToExist - totalSupply
            if tokensLeft < amountOfTokensToMint then
              if tokensLeft ≤ 0 then
                ⟨ev3 ++ [.notify .allNftsSold .default none none, .setIsMinting false],
                  .returned⟩
              else
                ⟨ev3 ++ [.notify (.offerToBuy tokensLeft amountOfTokensToMint) .info
                    (some 15000) (some tokensLeft), .setIsMinting false], .returned⟩
            else
              let ev4 := ev3 ++ [Event.getMaticBalance address]
              match env.maticBalanceResult with
              | .error _ => ⟨ev4, .threw⟩
              | .ok userBalance =>
                if pricePerToken.toRat * (amountOfTokensToMint : ℚ) ≥ userBalance then
                  ⟨ev4 ++ [.notify (.notEnoughMoney amountOfTokensToMint) .default none none,
                      .setIsMinting false], .returned⟩
                else
                  let value := (((BigNumber.ofInt amountOfTokensToMint).times
                      pricePerToken).times (BigNumber.ofInt (10 ^ 18))).toFixed
                  let ev5 := ev4 ++ [Event.contractCall
                      (.buy amountOfTokensToMint address value)]
                  match env.buyResult with
                  | .error _ => ⟨ev5 ++ [Event.setIsMinting false], .returned⟩
                  | .ok receipt =>
                    let successMsg : NotifyMsg :=
                      match receipt.transfer with
                      | .array => .mintSuccessMultiply
                      | .single tokenId => .mintSuccessSingle tokenId
                    ⟨ev5 ++ [.notify (.txHash receipt.transactionHash) .info (some 10000) none,
                        .notify successMsg .success (some 10000) none,
                        .setIsMinting false], .returned⟩

/-- Oracle for the awaited calls of `connect`. -/
structure ConnectEnv where
  hasWindowEthereum : Bool
  initWalletConnectResult : Bool
  getAccountResult : Except Unit AccountInfo

/-- The `connect` callback.  The missing-MetaMask branch notifies but does
not return, so `initWalletConnect` is still called.  The body after a
successful connect is inside a `try`: a rejected `getAccount`, or reading
`.slice` off an absent address, is caught and only logged. -/
def connect (env : ConnectEnv) (provider : IProviders) : List Event :=
  (if provider = IProviders.MetaMask ∧ env.hasWindowEthereum = false then
      [Event.notify .installMetaMask .error none none]
    else [])
  ++ [Event.initWalletConnect provider]
  ++ if env.initWalletConnectResult then
      Event.resetWeb3 ::
      Event.getAccount ::
      (match env.getAccountResult with
        | .error _ => []
        | .ok accountInfo =>
          match accountInfo.address with
          | none => []
          | some address =>
            Event.notify (.walletConnected address) .success none none ::
            ((if address ≠ "" then
                [Event.setAccount (some accountInfo),
                  Event.localStorageSetItem "providerType" accountInfo.type]
              else []) ++
              [Event.eventSubscribe, Event.setCurrentSubscription]))
    else []

/-- The `disconnect` callback; `hasSubscription` is whether
`currentSubsriber` is set (the `?.unsubscribe()` optional call). -/
def disconnect (hasSubscription : Bool) : List Event :=
  [Event.setAccount (some ⟨none, none⟩), Event.localStorageRemoveItem "providerType"]
  ++ (if hasSubscription then [Event.unsubscribe] else [])
  ++ [Event.resetConnect]

/-- The `subscriberError` callback.  `chainName` is
`polygonProvider.network.chainName` from the (external) config; `errCode`
is `err.code`.  Only code 4 is handled. -/
def subscriberError (chainName : String) (errCode : ℤ) : List Event :=
  if errCode = 4 then
    [Event.resetConnect,
      Event.notify (.wrongNetwork chainName) .error none none,
      Event.setAccount (some ⟨none, none⟩)]
  else []

/-! ### Arithmetic facts about the `BigNumber` model -/

theorem BigNumber.toRat_eq (b : BigNumber) : b.toRat = (b.c : ℚ) * (10 : ℚ) ^ b.e := by
  unfold BigNumber.toRat
  split
  case isTrue h =>
    congr 1
    rw [← zpow_natCast]
    congr 1
    omega
  case isFalse h =>
    rw [div_eq_mul_inv]
    congr 1
    rw [← zpow_natCast, ← zpow_neg]
    congr 1
    omega

theorem BigNumber.toRat_times (a b : BigNumber) :
    (a.times b).toRat = a.toRat * b.toRat := by
  have h10 : (10 : ℚ) ≠ 0 := by norm_num
  simp only [BigNumber.toRat_eq, BigNumber.times, zpow_add₀ h10]
  push_cast
  ring

theorem BigNumber.toRat_ofInt (n : ℤ) : (BigNumber.ofInt n).toRat = (n : ℚ) := by
  simp [BigNumber.toRat, BigNumber.ofInt]

/-! ### The claims -/

/-- C7: for every mint call made while no account is connected (the stored
account is absent or has no usable address), the trace is exactly one
notification prompting the user to connect, and no contract access of any
kind occurs. -/
theorem mint_no_account_notifies_and_never_calls_contract
    (account : Option AccountInfo) (pricePerToken : BigNumber) (env : MintEnv)
    (amount : ℤ) (haddr : accountAddress account = none) :
    mint account pricePerToken env amount =
      ⟨[.notify .pleaseConnectWallet .default none none], .returned⟩ ∧
    (∀ c, Event.contractCall c ∉ (mint account pricePerToken env amount).events) ∧
    Event.getContract ∉ (mint account pricePerToken env amount).events := by
  have h : mint account pricePerToken env amount =
      ⟨[.notify .pleaseConnectWallet .default none none], .returned⟩ := by
    unfold mint
    rw [haddr]
  refine ⟨h, ?_, ?_⟩
  · intro c
    rw [h]
    simp
  · rw [h]
    simp

/-- Witness for C7 at a concrete absent account. -/
theorem mint_no_account_notifies_and_never_calls_contract_witness :
    mint none ⟨1, -1⟩ ⟨.ok false, .ok 10, .ok 0, .ok 100, .error ()⟩ 2 =
      ⟨[.notify .pleaseConnectWallet .default none none], .returned⟩ ∧
    (∀ c, Event.contractCall c ∉
      (mint none ⟨1, -1⟩ ⟨.ok false, .ok 10, .ok 0, .ok 100, .error ()⟩ 2).events) ∧
    Event.getContract ∉
      (mint none ⟨1, -1⟩ ⟨.ok false, .ok 10, .ok 0, .ok 100, .error ()⟩ 2).events :=
  mint_no_account_notifies_and_never_calls_contract none ⟨1, -1⟩ _ 2 rfl

/-- C9: the early-abort branch for a missing account performs no state
update at all: `isMinting` is never set (in particular never set to true),
and the account, price and subscription state are untouched. -/
theorem mint_no_account_frame
    (account : Option AccountInfo) (pricePerToken : BigNumber) (env : MintEnv)
    (amount : ℤ) (haddr : accountAddress account = none) :
    (∀ b, Event.setIsMinting b ∉ (mint account pricePerToken env amount).events) ∧
    (∀ a, Event.setAccount a ∉ (mint account pricePerToken env amount).events) ∧
    (∀ p, Event.setPricePerToken p ∉ (mint account pricePerToken env amount).events) ∧
    Event.setCurrentSubscription ∉ (mint account pricePerToken env amount).events := by
  have h : mint account pricePerToken env amount =
      ⟨[.notify .pleaseConnectWallet .default none none], .returned⟩ := by
    unfold mint
    rw [haddr]
  rw [h]
  refine ⟨?_, ?_, ?_, ?_⟩ <;> simp

/-- Witness for C9 at a concrete account value without an address. -/
theorem mint_no_account_frame_witness :
    (∀ b, Event.setIsMinting b ∉
      (mint (some ⟨none, some "MetaMask"⟩) ⟨1, -1⟩
        ⟨.ok false, .ok 10, .ok 0, .ok 100, .error ()⟩ 2).events) ∧
    (∀ a, Event.setAccount a ∉
      (mint (some ⟨none, some "MetaMask"⟩) ⟨1, -1⟩
        ⟨.ok false, .ok 10, .ok 0, .ok 100, .error ()⟩ 2).events) ∧
    (∀ p, Event.setPricePerToken p ∉
      (mint (some ⟨none, some "MetaMask"⟩) ⟨1, -1⟩
        ⟨.ok false, .ok 10, .ok 0, .ok 100, .error ()⟩ 2).events) ∧
    Event.setCurrentSubscription ∉
      (mint (some ⟨none, some "MetaMask"⟩) ⟨1, -1⟩
        ⟨.ok false, .ok 10, .ok 0, .ok 100, .error ()⟩ 2).events :=
  mint_no_account_frame (some ⟨none, some "MetaMask"⟩) ⟨1, -1⟩ _ 2 rfl

/-- C6: whenever the paused query answers true, the mint flow stops right
there: the full trace is the start-of-flow bookkeeping, the paused query
itself, a paused notification and the reset of the in-progress flag — so
no buy transaction and no contract call after the paused query occur. -/
theorem mint_paused_aborts_before_any_further_call
    (account : Option AccountInfo) (pricePerToken : BigNumber) (env : MintEnv)
    (amount : ℤ) (addr : String) (haddr : accountAddress account = some addr)
    (hp : env.pausedResult = .ok true) :
    mint account pricePerToken env amount =
      ⟨[.setIsMinting true, .getContract, .contractCall .paused,
        .notify .mintingPausedNow .default none none, .setIsMinting false], .returned⟩ ∧
    ∀ a f v, Event.contractCall (.buy a f v) ∉ (mint account pricePerToken env amount).events := by
  have h : mint account pricePerToken env amount =
      ⟨[.setIsMinting true, .getContract, .contractCall .paused,
        .notify .mintingPausedNow .default none none, .setIsMinting false], .returned⟩ := by
    unfold mint
    rw [haddr, hp]
    simp
  refine ⟨h, ?_⟩
  intro a f v
  rw [h]
  simp

/-- Witness for C6 at a concrete paused environment. -/
theorem mint_paused_aborts_before_any_further_call_witness :
    mint (some ⟨some "0xabc", some "MetaMask"⟩) ⟨1, -1⟩
        ⟨.ok true, .ok 10, .ok 0, .ok 100, .error ()⟩ 2 =
      ⟨[.setIsMinting true, .getContract, .contractCall .paused,
        .notify .mintingPausedNow .default none none, .setIsMinting false], .returned⟩ ∧
    ∀ a f v, Event.contractCall (.buy a f v) ∉
      (mint (some ⟨some "0xabc", some "MetaMask"⟩) ⟨1, -1⟩
        ⟨.ok true, .ok 10, .ok 0, .ok 100, .error ()⟩ 2).events :=
  mint_paused_aborts_before_any_further_call (some ⟨some "0xabc", some "MetaMask"⟩)
    ⟨1, -1⟩ ⟨.ok true, .ok 10, .ok 0, .ok 100, .error ()⟩ 2 "0xabc" rfl rfl

/-- C3: when the requested amount exceeds the strictly positive remaining
supply, the original request aborts with no buy transaction, and the
partial-fulfillment offer carries a retry callback whose mint amount is
exactly the remaining supply. -/
theorem mint_partial_fulfillment_offer
    (account : Option AccountInfo) (pricePerToken : BigNumber) (env : MintEnv)
    (amount : ℤ) (addr : String) (A T : ℤ)
    (haddr : accountAddress account = some addr)
    (hp : env.pausedResult = .ok false)
    (hA : env.allowedToExistResult = .ok A)
    (hT : env.totalSupplyResult = .ok T)
    (hlt : A - T < amount) (hpos : 0 < A - T) :
    Event.notify (.offerToBuy (A - T) amount) .info (some 15000) (some (A - T)) ∈
      (mint account pricePerToken env amount).events ∧
    (∀ a f v, Event.contractCall (.buy a f v) ∉
      (mint account pricePerToken env amount).events) ∧
    (mint account pricePerToken env amount).outcome = .returned := by
  have h : mint account pricePerToken env amount =
      ⟨[.setIsMinting true, .getContract, .contractCall .paused,
        .contractCall .allowedToExist, .contractCall .totalSupply,
        .notify (.offerToBuy (A - T) amount) .info (some 15000) (some (A - T)),
        .setIsMinting false], .returned⟩ := by
    unfold mint
    rw [haddr, hp, hA, hT]
    simp only [Bool.false_eq_true, if_false]
    rw [if_pos hlt, if_neg (by omega : ¬ A - T ≤ 0)]
    simp
  refine ⟨?_, ?_, ?_⟩
  · rw [h]; simp
  · intro a f v; rw [h]; simp
  · rw [h]

/-- Witness for C3: 10 allowed, 7 minted, 5 requested — the offer is for
the 3 remaining tokens. -/
theorem mint_partial_fulfillment_offer_witness :
    Event.notify (.offerToBuy 3 5) .info (some 15000) (some 3) ∈
      (mint (some ⟨some "0xabc", none⟩) ⟨1, -1⟩
        ⟨.ok false, .ok 10, .ok 7, .ok 100, .error ()⟩ 5).events ∧
    (∀ a f v, Event.contractCall (.buy a f v) ∉
      (mint (some ⟨some "0xabc", none⟩) ⟨1, -1⟩
        ⟨.ok false, .ok 10, .ok 7, .ok 100, .error ()⟩ 5).events) ∧
    (mint (some ⟨some "0xabc", none⟩) ⟨1, -1⟩
      ⟨.ok false, .ok 10, .ok 7, .ok 100, .error ()⟩ 5).outcome = .returned :=
  mint_partial_fulfillment_offer (some ⟨some "0xabc", none⟩) ⟨1, -1⟩
    ⟨.ok false, .ok 10, .ok 7, .ok 100, .error ()⟩ 5 "0xabc" 10 7
    rfl rfl rfl rfl (by decide) (by decide)

/-- C4: when the remaining supply is not positive (and thus below any
requested amount above it), a sold-out notification fires, no notification
in the trace carries a retry callback, no buy transaction is submitted,
and the flow returns. -/
theorem mint_sold_out_no_retry
    (account : Option AccountInfo) (pricePerToken : BigNumber) (env : MintEnv)
    (amount : ℤ) (addr : String) (A T : ℤ)
    (haddr : accountAddress account = some addr)
    (hp : env.pausedResult = .ok false)
    (hA : env.allowedToExistResult = .ok A)
    (hT : env.totalSupplyResult = .ok T)
    (hle : A - T ≤ 0) (hlt : A - T < amount) :
    Event.notify .allNftsSold .default none none ∈
      (mint account pricePerToken env amount).events ∧
    (∀ m s d k, Event.notify m s d (some k) ∉
      (mint account pricePerToken env amount).events) ∧
    (∀ a f v, Event.contractCall (.buy a f v) ∉
      (mint account pricePerToken env amount).events) ∧
    (mint account pricePerToken env amount).outcome = .returned := by
  have h : mint account pricePerToken env amount =
      ⟨[.setIsMinting true, .getContract, .contractCall .paused,
        .contractCall .allowedToExist, .contractCall .totalSupply,
        .notify .allNftsSold .default none none, .setIsMinting false], .returned⟩ := by
    unfold mint
    rw [haddr, hp, hA, hT]
    simp only [Bool.false_eq_true, if_false]
    rw [if_pos hlt, if_pos hle]
    simp
  refine ⟨?_, ?_, ?_, ?_⟩
  · rw [h]; simp
  · intro m s d k; rw [h]; simp
  · intro a f v; rw [h]; simp
  · rw [h]

/-- Witness for C4: supply exhausted (10 allowed, 10 minted), 1
requested. -/
theorem mint_sold_out_no_retry_witness :
    Event.notify .allNftsSold .default none none ∈
      (mint (some ⟨some "0xabc", none⟩) ⟨1, -1⟩
        ⟨.ok false, .ok 10, .ok 10, .ok 100, .error ()⟩ 1).events ∧
    (∀ m s d k, Event.notify m s d (some k) ∉
      (mint (some ⟨some "0xabc", none⟩) ⟨1, -1⟩
        ⟨.ok false, .ok 10, .ok 10, .ok 100, .error ()⟩ 1).events) ∧
    (∀ a f v, Event.contractCall (.buy a f v) ∉
      (mint (some ⟨some "0xabc", none⟩) ⟨1, -1⟩
        ⟨.ok false, .ok 10, .ok 10, .ok 100, .error ()⟩ 1).events) ∧
    (mint (some ⟨some "0xabc", none⟩) ⟨1, -1⟩
      ⟨.ok false, .ok 10, .ok 10, .ok 100, .error ()⟩ 1).outcome = .returned :=
  mint_sold_out_no_retry (some ⟨some "0xabc", none⟩) ⟨1, -1⟩
    ⟨.ok false, .ok 10, .ok 10, .ok 100, .error ()⟩ 1 "0xabc" 10 10
    rfl rfl rfl rfl (by decide) (by decide)

/-- C5: past the supply check, the flow aborts with the
insufficient-funds notification and no buy transaction exactly when
`pricePerToken * amount >= balance`; at exact equality the user therefore
cannot mint. -/
theorem mint_insufficient_funds_iff
    (account : Option AccountInfo) (pricePerToken : BigNumber) (env : MintEnv)
    (amount : ℤ) (addr : String) (A T : ℤ) (bal : ℚ)
    (haddr : accountAddress account = some addr)
    (hp : env.pausedResult = .ok false)
    (hA : env.allowedToExistResult = .ok A)
    (hT : env.totalSupplyResult = .ok T)
    (hsup : ¬ A - T < amount)
    (hbal : env.maticBalanceResult = .ok bal) :
    (Event.notify (.notEnoughMoney amount) .default none none ∈
        (mint account pricePerToken env amount).events ∧
      (∀ a f v, Event.contractCall (.buy a f v) ∉
        (mint account pricePerToken env amount).events)) ↔
      bal ≤ pricePerToken.toRat * (amount : ℚ) := by
  by_cases hc : pricePerToken.toRat * (amount : ℚ) ≥ bal
  · have h : mint account pricePerToken env amount =
        ⟨[.setIsMinting true, .getContract, .contractCall .paused,
          .contractCall .allowedToExist, .contractCall .totalSupply,
          .getMaticBalance addr,
          .notify (.notEnoughMoney amount) .default none none,
          .setIsMinting false], .returned⟩ := by
      unfold mint
      rw [haddr, hp, hA, hT, hbal]
      simp only [Bool.false_eq_true, if_false]
      rw [if_neg hsup, if_pos hc]
      simp
    constructor
    · intro _
      exact hc
    · intro _
      refine ⟨by rw [h]; simp, ?_⟩
      intro a f v
      rw [h]
      simp
  · have hbuy : Event.contractCall
        (.buy amount addr (((BigNumber.ofInt amount).times pricePerToken).times
          (BigNumber.ofInt (10 ^ 18))).toFixed) ∈
        (mint account pricePerToken env amount).events := by
      unfold mint
      rw [haddr, hp, hA, hT, hbal]
      simp only [Bool.false_eq_true, if_false]
      rw [if_neg hsup, if_neg hc]
      cases env.buyResult with
      | error e => simp
      | ok receipt => simp
    constructor
    · intro hmem
      exact absurd hbuy (hmem.2 _ _ _)
    · intro hrb
      exact absurd hrb hc

/-- Witness for C5 at a balance exactly equal to the total price: price
0.1, amount 3, balance 0.3 — the flow aborts with the insufficient-funds
notification and no buy transaction, so the user cannot mint. -/
theorem mint_insufficient_funds_iff_witness :
    Event.notify (.notEnoughMoney 3) .default none none ∈
      (mint (some ⟨some "0xabc", none⟩) ⟨1, -1⟩
        ⟨.ok false, .ok 10, .ok 0, .ok (3 / 10), .error ()⟩ 3).events ∧
    (∀ a f v, Event.contractCall (.buy a f v) ∉
      (mint (some ⟨some "0xabc", none⟩) ⟨1, -1⟩
        ⟨.ok false, .ok 10, .ok 0, .ok (3 / 10), .error ()⟩ 3).events) :=
  (mint_insufficient_funds_iff (some ⟨some "0xabc", none⟩) ⟨1, -1⟩
    ⟨.ok false, .ok 10, .ok 0, .ok (3 / 10), .error ()⟩ 3 "0xabc" 10 0 (3 / 10)
    rfl rfl rfl rfl (by decide) rfl).mpr (by norm_num [BigNumber.toRat])

/-- C2: any buy transaction appearing in a mint trace carries the
requested amount and a value string produced by the exact decimal
computation `amount * pricePerToken * 10^18`; that decimal computation
has no rounding error (its value is exactly the rational product), and at
price 0.1 and amount 3 the string is "300000000000000000". -/
theorem mint_buy_value_exact
    (account : Option AccountInfo) (pricePerToken : BigNumber) (env : MintEnv)
    (amount a2 : ℤ) (fromA v : String)
    (hbuy : Event.contractCall (.buy a2 fromA v) ∈
      (mint account pricePerToken env amount).events) :
    a2 = amount ∧
    v = (((BigNumber.ofInt amount).times pricePerToken).times
        (BigNumber.ofInt (10 ^ 18))).toFixed ∧
    (((BigNumber.ofInt amount).times pricePerToken).times
        (BigNumber.ofInt (10 ^ 18))).toRat
      = (amount : ℚ) * pricePerToken.toRat * 10 ^ 18 ∧
    (pricePerToken = ⟨1, -1⟩ → amount = 3 → v = "300000000000000000") := by
  have hval : (((BigNumber.ofInt amount).times pricePerToken).times
      (BigNumber.ofInt (10 ^ 18))).toRat
        = (amount : ℚ) * pricePerToken.toRat * 10 ^ 18 := by
    rw [BigNumber.toRat_times, BigNumber.toRat_times, BigNumber.toRat_ofInt,
      BigNumber.toRat_ofInt]
    push_cast
    ring
  have hav : a2 = amount ∧ v = (((BigNumber.ofInt amount).times pricePerToken).times
      (BigNumber.ofInt (10 ^ 18))).toFixed := by
    rcases env with ⟨pres, ares, tres, bres, buyres⟩
    unfold mint at hbuy
    cases hacc : accountAddress account with
    | none => rw [hacc] at hbuy; simp at hbuy
    | some addr =>
      rw [hacc] at hbuy
      cases pres with
      | error e => simp at hbuy
      | ok p =>
        cases p with
        | true => simp at hbuy
        | false =>
          simp only [Bool.false_eq_true, if_false] at hbuy
          cases ares with
          | error e => simp at hbuy
          | ok A =>
            cases tres with
            | error e => simp at hbuy
            | ok T =>
              simp only [] at hbuy
              by_cases h1 : A - T < amount
              · rw [if_pos h1] at hbuy
                by_cases h2 : A - T ≤ 0
                · rw [if_pos h2] at hbuy; simp at hbuy
                · rw [if_neg h2] at hbuy; simp at hbuy
              · rw [if_neg h1] at hbuy
                cases bres with
                | error e => simp at hbuy
                | ok bal =>
                  simp only [] at hbuy
                  by_cases h3 : pricePerToken.toRat * (amount : ℚ) ≥ bal
                  · rw [if_pos h3] at hbuy; simp at hbuy
                  · rw [if_neg h3] at hbuy
                    cases buyres with
                    | error e =>
                      simp at hbuy
                      exact ⟨hbuy.1, hbuy.2.2⟩
                    | ok receipt =>
                      simp at hbuy
                      exact ⟨hbuy.1, hbuy.2.2⟩
  refine ⟨hav.1, hav.2, hval, ?_⟩
  intro hp3 ha3
  subst hp3
  subst ha3
  rw [hav.2]
  rfl

/-- Witness for C2: a full successful mint at price 0.1, amount 3 — the
submitted value string is exactly "300000000000000000". -/
theorem mint_buy_value_exact_witness :
    3 = (3 : ℤ) ∧
    "300000000000000000" = (((BigNumber.ofInt 3).times ⟨1, -1⟩).times
        (BigNumber.ofInt (10 ^ 18))).toFixed ∧
    (((BigNumber.ofInt 3).times ⟨1, -1⟩).times
        (BigNumber.ofInt (10 ^ 18))).toRat
      = ((3 : ℤ) : ℚ) * BigNumber.toRat ⟨1, -1⟩ * 10 ^ 18 ∧
    ((⟨1, -1⟩ : BigNumber) = ⟨1, -1⟩ → (3 : ℤ) = 3 →
      "300000000000000000" = "300000000000000000") :=
  mint_buy_value_exact (some ⟨some "0xabc", none⟩) ⟨1, -1⟩
    ⟨.ok false, .ok 10, .ok 0, .ok 100, .ok ⟨"0xhash", .array⟩⟩ 3 3 "0xabc"
    "300000000000000000" (by
      unfold mint
      norm_num [accountAddress, BigNumber.toRat]
      decide)

/-- C1 as stated fails on the code: with a connected account, if the
paused query (an awaited call of the mint workflow) throws, the exception
is not caught — it escapes `mint` — and the in-progress flag, set to true
at the start, is never reset to false. -/
theorem mint_exception_counterexample :
    (mint (some ⟨some "0xabc", none⟩) ⟨1, -1⟩
      ⟨.error (), .ok 10, .ok 0, .ok 100, .error ()⟩ 1).outcome = .threw ∧
    Event.setIsMinting true ∈
      (mint (some ⟨some "0xabc", none⟩) ⟨1, -1⟩
        ⟨.error (), .ok 10, .ok 0, .ok 100, .error ()⟩ 1).events ∧
    Event.setIsMinting false ∉
      (mint (some ⟨some "0xabc", none⟩) ⟨1, -1⟩
        ⟨.error (), .ok 10, .ok 0, .ok 100, .error ()⟩ 1).events := by
  decide

/-- C1 amended: the `try` block wraps only the buy transaction.  (1) If
`mint` lets an exception escape (which happens exactly when the paused,
supply or balance queries throw), the in-progress flag is not reset.
(2) If every check passes and the buy transaction itself throws, the
exception is caught, the trace ends by resetting the in-progress flag,
and no notification of any kind (in particular no error notification) is
produced. -/
theorem mint_catch_only_wraps_buy
    (account : Option AccountInfo) (pricePerToken : BigNumber) (env : MintEnv)
    (amount : ℤ) (addr : String)
    (haddr : accountAddress account = some addr) :
    ((mint account pricePerToken env amount).outcome = .threw →
      Event.setIsMinting false ∉ (mint account pricePerToken env amount).events) ∧
    (∀ A T bal, env.pausedResult = .ok false → env.allowedToExistResult = .ok A →
      env.totalSupplyResult = .ok T → ¬ A - T < amount →
      env.maticBalanceResult = .ok bal →
      ¬ pricePerToken.toRat * (amount : ℚ) ≥ bal →
      env.buyResult = .error () →
      mint account pricePerToken env amount =
        ⟨[.setIsMinting true, .getContract, .contractCall .paused,
          .contractCall .allowedToExist, .contractCall .totalSupply,
          .getMaticBalance addr,
          .contractCall (.buy amount addr
            (((BigNumber.ofInt amount).times pricePerToken).times
              (BigNumber.ofInt (10 ^ 18))).toFixed),
          .setIsMinting false], .returned⟩) := by
  constructor
  · rcases env with ⟨pres, ares, tres, bres, buyres⟩
    unfold mint
    rw [haddr]
    cases pres with
    | error e => simp
    | ok p =>
      cases p with
      | true => simp
      | false =>
        simp only [Bool.false_eq_true, if_false]
        cases ares with
        | error e => simp
        | ok A =>
          cases tres with
          | error e => simp
          | ok T =>
            simp only []
            by_cases h1 : A - T < amount
            · rw [if_pos h1]
              by_cases h2 : A - T ≤ 0
              · rw [if_pos h2]; simp
              · rw [if_neg h2]; simp
            · rw [if_neg h1]
              cases bres with
              | error e => simp
              | ok bal =>
                simp only []
                by_cases h3 : pricePerToken.toRat * (amount : ℚ) ≥ bal
                · rw [if_pos h3]; simp
                · rw [if_neg h3]
                  cases buyres with
                  | error e => simp
                  | ok receipt => simp
  · intro A T bal hp hA hT hsup hbal hc hbr
    unfold mint
    rw [haddr, hp, hA, hT, hbal, hbr]
    simp only [Bool.false_eq_true, if_false]
    rw [if_neg hsup, if_neg hc]
    simp

/-- Witness for C1 amended: all checks pass, the buy transaction throws —
the flow returns normally with the flag reset and no notification. -/
theorem mint_catch_only_wraps_buy_witness :
    ((mint (some ⟨some "0xa", none⟩) ⟨1, -1⟩
        ⟨.ok false, .ok 10, .ok 0, .ok 100, .error ()⟩ 2).outcome = .threw →
      Event.setIsMinting false ∉
        (mint (some ⟨some "0xa", none⟩) ⟨1, -1⟩
          ⟨.ok false, .ok 10, .ok 0, .ok 100, .error ()⟩ 2).events) ∧
    (∀ A T bal, (Except.ok false : Except Unit Bool) = .ok false →
      (Except.ok (10 : ℤ) : Except Unit ℤ) = .ok A →
      (Except.ok (0 : ℤ) : Except Unit ℤ) = .ok T →
      ¬ A - T < 2 →
      (Except.ok (100 : ℚ) : Except Unit ℚ) = .ok bal →
      ¬ BigNumber.toRat ⟨1, -1⟩ * ((2 : ℤ) : ℚ) ≥ bal →
      (Except.error () : Except Unit TxReceipt) = .error () →
      mint (some ⟨some "0xa", none⟩) ⟨1, -1⟩
          ⟨.ok false, .ok 10, .ok 0, .ok 100, .error ()⟩ 2 =
        ⟨[.setIsMinting true, .getContract, .contractCall .paused,
          .contractCall .allowedToExist, .contractCall .totalSupply,
          .getMaticBalance "0xa",
          .contractCall (.buy 2 "0xa"
            (((BigNumber.ofInt 2).times ⟨1, -1⟩).times
              (BigNumber.ofInt (10 ^ 18))).toFixed),
          .setIsMinting false], .returned⟩) :=
  mint_catch_only_wraps_buy (some ⟨some "0xa", none⟩) ⟨1, -1⟩
    ⟨.ok false, .ok 10, .ok 0, .ok 100, .error ()⟩ 2 "0xa" rfl

/-- C8 as stated fails on the code: the wrong-network handler is not
equivalent in effect to the public `disconnect` — `disconnect` removes the
persisted provider key and unsubscribes from wallet events, while the
error handler does neither. -/
theorem subscriberError_not_equivalent_to_disconnect :
    Event.localStorageRemoveItem "providerType" ∈ disconnect true ∧
    Event.localStorageRemoveItem "providerType" ∉ subscriberError "Polygon" 4 ∧
    Event.unsubscribe ∈ disconnect true ∧
    Event.unsubscribe ∉ subscriberError "Polygon" 4 := by
  decide

/-- C8 amended: on error code 4 (wrong network) the handler resets the
wallet-service connection and clears the account — the reset and
account-clearing effects it shares with `disconnect` — and shows an
error notification naming the required network's chain name; unlike
`disconnect`, it does not remove the persisted provider key and does not
unsubscribe. -/
theorem subscriberError_wrong_network (chainName : String) (errCode : ℤ)
    (h : errCode = 4) :
    subscriberError chainName errCode =
      [Event.resetConnect,
        Event.notify (.wrongNetwork chainName) .error none none,
        Event.setAccount (some ⟨none, none⟩)] ∧
    Event.localStorageRemoveItem "providerType" ∉ subscriberError chainName errCode ∧
    Event.unsubscribe ∉ subscriberError chainName errCode := by
  subst h
  refine ⟨by simp [subscriberError], ?_, ?_⟩ <;> simp [subscriberError]

/-- Witness for C8 amended at error code 4 and a concrete chain name. -/
theorem subscriberError_wrong_network_witness :
    subscriberError "Polygon Mainnet" 4 =
      [Event.resetConnect,
        Event.notify (.wrongNetwork "Polygon Mainnet") .error none none,
        Event.setAccount (some ⟨none, none⟩)] ∧
    Event.localStorageRemoveItem "providerType" ∉ subscriberError "Polygon Mainnet" 4 ∧
    Event.unsubscribe ∉ subscriberError "Polygon Mainnet" 4 :=
  subscriberError_wrong_network "Polygon Mainnet" 4 rfl

/-- C10: connecting with MetaMask while `window.ethereum` is absent shows
the install-MetaMask error notification but does not abort — the wallet
service's `initWalletConnect` is still called with MetaMask. -/
theorem connect_missing_metamask_still_inits (env : ConnectEnv)
    (h : env.hasWindowEthereum = false) :
    Event.notify .installMetaMask .error none none ∈ connect env .MetaMask ∧
    Event.initWalletConnect .MetaMask ∈ connect env .MetaMask := by
  unfold connect
  rw [if_pos ⟨rfl, h⟩]
  constructor <;> simp

/-- Witness for C10 at a concrete environment without `window.ethereum`. -/
theorem connect_missing_metamask_still_inits_witness :
    Event.notify .installMetaMask .error none none ∈
      connect ⟨false, true, .ok ⟨some "0xabc", some "MetaMask"⟩⟩ .MetaMask ∧
    Event.initWalletConnect .MetaMask ∈
      connect ⟨false, true, .ok ⟨some "0xabc", some "MetaMask"⟩⟩ .MetaMask :=
  connect_missing_metamask_still_inits ⟨false, true, .ok ⟨some "0xabc", some "MetaMask"⟩⟩ rfl
